import Mathlib

/-!
Verification of the pyseg plugin's conversion and installation logic.

The definitions below are shallow embeddings of the Python sources:

* `src/pyseg/convert.py` — star-file splitting, particle reading,
  vesicle-id extraction, transform-matrix construction, origin handling;
* `src/pyseg/__init__.py` — the compiler-version pre-installation check;
* `src/pyseg/protocols/protocol_pre_seg.py` — the final pruning of
  degenerate or undersized segmentations.

Tables are modelled as lists of rows; Python strings as `List Char`
(with `String` at the boundaries); file-system writes as the list of
written contents in write order.
-/

namespace PysegV

/-! ### Python string primitives used by `convert.py`

`strFind p s` is the index of the first occurrence of `p` in `s`
(`Python str.find`, but returning `Option` instead of `-1`;
`pyFind` below adds the `-1` convention). -/

def strFind (p : List Char) : List Char → Option Nat
  | [] => if p = [] then some 0 else none
  | c :: t => if p.isPrefixOf (c :: t) then some 0 else (strFind p t).map (· + 1)

/-- Python `str.find`: first index of `p` in `s`, or `-1` when absent. -/
def pyFind (s p : List Char) : Int :=
  match strFind p s with
  | some i => (i : Int)
  | none => -1

/-- Normalise one Python slice index against a length `n`. -/
def sliceIdx (n : Nat) (i : Int) : Nat :=
  if i < 0 then ((n : Int) + i).toNat else min i.toNat n

/-- Python slice `l[i:j]` (step 1). -/
def pySlice (l : List Char) (i j : Int) : List Char :=
  (l.take (sliceIdx l.length j)).drop (sliceIdx l.length i)

/-- Python `p in s` as substring containment. -/
def pyContains (s p : List Char) : Bool :=
  (strFind p s).isSome

/-! ### The star-file splitter (`splitPysegStarFile`, convert.py lines 55-90)

The table is a list of rows; output-file writes are collected in order.
`j` is the group size. One fold step performs the body of the
`for vesicleRow in tomoTable` loop: append the row to the current output
table, then, when `counter > 1 and counter % j == 0`, write the current
output table as the next file and clear it. -/

def splitStep (j : Nat) (st : Nat × List α × List (List α)) (r : α) :
    Nat × List α × List (List α) :=
  let c := st.1
  let out := st.2.1 ++ [r]
  if 1 < c ∧ c % j = 0 then (c + 1, [], st.2.2 ++ [out])
  else (c + 1, out, st.2.2)

/-- Embedding of `splitPysegStarFile` from `convert.py`: the main row loop followed by
the remainder handling `rem = nVesicles % j`; when `rem > 0` the rows of
the Python slice `tomoTable[-rem:-1]` are appended to the current output
table, which is then written as the final file.  The result is the list
of written files, in write (= file-name) order. -/
def splitPysegStarFile (rows : List α) (j : Nat) : List (List α) :=
  let st := rows.foldl (splitStep j) (1, [], [])
  let rem := rows.length % j
  if 0 < rem then
    st.2.2 ++ [st.2.1 ++ (rows.drop (rows.length - rem)).dropLast]
  else st.2.2

/-- A format error, as raised by the tabular I/O layer.  Carried in an
`Except` to model Python exception propagation out of
`splitPysegStarFile`; no statement in the function body raises. -/
structure FormatError where
  msg : String
deriving DecidableEq

/-- Variant of `splitPysegStarFile` with its Python exception channel made explicit:
the body contains no `raise`, and with an in-memory table none of the
table operations it performs can fail, so every input returns `Except.ok`. -/
def splitPysegStarFileE (rows : List α) (j : Nat) :
    Except FormatError (List (List α)) :=
  Except.ok (splitPysegStarFile rows j)

/-! ### Python `str.split` (needed for the subtomogram group id) -/

/-- An occurrence of `strFind` bounds the index: the pattern fits inside
the string at the reported position. -/
theorem strFind_some_bound {p s : List Char} {i : Nat}
    (h : strFind p s = some i) : i + p.length ≤ s.length := by
  induction s generalizing i with
  | nil =>
    by_cases hp : p = [] <;> simp [strFind, hp] at h
    simp [hp, ← h]
  | cons c t ih =>
    rw [strFind] at h
    by_cases hp : p.isPrefixOf (c :: t)
    · simp [hp] at h
      have := ( List.isPrefixOf_iff_prefix.mp hp).length_le
      simpa [← h] using this
    · simp [hp] at h
      obtain ⟨i₀, h₀, rfl⟩ := h
      have := ih h₀
      simp only [List.length_cons]
      omega

/-- Python `s.split(sep)` for a non-empty separator (an empty separator
raises `ValueError` in Python; here it returns the whole string). -/
def pySplitStr (sep : List Char) (s : List Char) : List (List Char) :=
  if h : sep = [] then [s]
  else
    match hf : strFind sep s with
    | none => [s]
    | some i => s.take i :: pySplitStr sep (s.drop (i + sep.length))
termination_by s.length
decreasing_by
  have hb := strFind_some_bound hf
  have hs : 0 < sep.length := List.length_pos.mpr h
  simp only [List.length_drop]
  omega

/-! ### Vesicle-id extraction (`convert.py` lines 275-290) -/

def splitPattern : List Char := "_split_".toList

def tidPatten : List Char := "_tid_".toList

def idPattern : List Char := "_id_".toList

/-- The bare pattern `tid_` used in `_relionTomoStar2Subtomograms`. -/
def tidBarePattern : List Char := "tid_".toList

/-- Index of the last occurrence of character `c` in `l`, if any. -/
def lastIdxOf (c : Char) (l : List Char) : Option Nat :=
  ((l.enum.filter (fun p => p.2 = c)).map (fun p => p.1)).getLast?

/-- Python `os.path.basename`: everything after the last path separator. -/
def pyBasename (l : List Char) : List Char :=
  (l.reverse.takeWhile (fun c => c ≠ '/')).reverse

/-- Python `os.path.splitext(...)[0]` applied to a basename: cut at the last dot,
unless every character before that dot is itself a dot (leading dots do
not start an extension). -/
def splitextFstBase (l : List Char) : List Char :=
  match lastIdxOf '.' l with
  | none => l
  | some d => if (l.take d).any (fun c => c ≠ '.') then l.take d else l

/-- Embedding of `pyworkflow.utils.removeBaseExt`: strip the directory, then the
extension. -/
def removeBaseExt (l : List Char) : List Char :=
  splitextFstBase (pyBasename l)

/-- Embedding of `_getVesicleIdFromSubtomoName` from `convert.py`: on the base name,
if it contains `_split_` return the slice between `find('_id_') + 4` and
`find('_split_')`; otherwise the slice from `find('_tid_') + 5` to the
end. -/
def getVesicleIdFromSubtomoName (subtomoName : List Char) : List Char :=
  let baseName := removeBaseExt subtomoName
  if pyContains baseName splitPattern then
    pySlice baseName (pyFind baseName idPattern + (idPattern.length : Int))
      (pyFind baseName splitPattern)
  else
    pySlice baseName (pyFind baseName tidPatten + (tidPatten.length : Int))
      (baseName.length : Int)

/-- The group id assigned in `_relionTomoStar2Subtomograms`
(`convert.py` lines 176-182): when the file name contains `tid_`, the
group id is `subtomoFn.split('tid_')[1][0]`; both indexings are modelled
with `Option` (Python would raise `IndexError` where this is `none`).
When the file name does not contain `tid_`, no group id is assigned. -/
def relionSubtomoGroupId (subtomoFn : List Char) : Option Char :=
  if pyContains subtomoFn tidBarePattern then
    ((pySplitStr tidBarePattern subtomoFn).get? 1).bind List.head?
  else
    none

/-! ### Subtomogram origin (`manageIhDims`, `convert.py` lines 117-127
and 169-173) -/

/-- Python `str.endswith`. -/
def pyEndsWith (s suffix : List Char) : Bool :=
  suffix.isSuffixOf s

/-- Embedding of `manageIhDims` from `convert.py`: for `.mrc`/`.map` files whose `z`
dimension is 1 while the object count `n` is not 1, use `n` as the z
dimension. -/
def manageIhDims (fileName : List Char) (z n : Int) : Int × List Char :=
  if pyEndsWith fileName ".mrc".toList || pyEndsWith fileName ".map".toList then
    if z = 1 && n != 1 then (n, fileName) else (z, fileName)
  else
    (z, fileName)

/-- The origin shifts set on each produced subtomogram
(`convert.py` line 170-172):
`origin.setShifts(x / -2. * samplingRate, y / -2. * samplingRate,
zDim / -2. * samplingRate)` with `zDim` from `manageIhDims`. -/
def subtomoOriginShifts (fileName : List Char) (x y z n : Int)
    (samplingRate : ℚ) : ℚ × ℚ × ℚ :=
  let zDim := (manageIhDims fileName z n).1
  ((x : ℚ) / (-2) * samplingRate,
   (y : ℚ) / (-2) * samplingRate,
   ((zDim : ℚ)) / (-2) * samplingRate)

/-! ### Semantics of `strFind`: first-occurrence characterisation -/

/-- Pattern `p` occurs in `s` at index `i`. -/
def occursAt (p s : List Char) (i : Nat) : Prop :=
  p <+: s.drop i

instance (p s : List Char) (i : Nat) : Decidable (occursAt p s i) := by
  unfold occursAt
  infer_instance

/-- Index `i` is the position of the first occurrence of `p` in `s`. -/
def firstOccAt (p s : List Char) (i : Nat) : Prop :=
  occursAt p s i ∧ ∀ k < i, ¬ occursAt p s k

instance (p s : List Char) (i : Nat) : Decidable (firstOccAt p s i) := by
  unfold firstOccAt occursAt
  infer_instance

/-- A non-empty pattern occurring at `i` fits within the string. -/
theorem occursAt_bound {p s : List Char} {i : Nat} (hp : p ≠ [])
    (h : occursAt p s i) : i + p.length ≤ s.length := by
  rcases le_or_lt i s.length with hle | hlt
  · have hl := h.length_le
    simp only [List.length_drop] at hl
    omega
  · have hnil : s.drop i = [] := List.drop_eq_nil_of_le (by omega)
    rw [occursAt, hnil] at h
    exact absurd (List.prefix_nil.mp h) hp

/-- Function `strFind` returns exactly the first-occurrence index. -/
theorem strFind_eq_some_iff {p s : List Char} {i : Nat} :
    strFind p s = some i ↔ firstOccAt p s i := by
  induction s generalizing i with
  | nil =>
    by_cases hp : p = []
    · subst hp
      have hs : strFind ([] : List Char) [] = some 0 := by simp [strFind]
      rw [hs]
      simp only [Option.some.injEq]
      constructor
      · rintro rfl
        exact ⟨by simp [occursAt], fun k hk => absurd hk (by omega)⟩
      · rintro ⟨-, hmin⟩
        by_contra hne
        exact hmin 0 (by omega) (by simp [occursAt])
    · rw [strFind, if_neg hp]
      constructor
      · intro h
        exact absurd h (by simp)
      · rintro ⟨hocc, -⟩
        rw [occursAt, List.drop_nil] at hocc
        exact absurd (List.prefix_nil.mp hocc) hp
  | cons c t ih =>
    rw [strFind]
    by_cases hp : p.isPrefixOf (c :: t)
    · rw [if_pos hp]
      have hpre : p <+: c :: t := List.isPrefixOf_iff_prefix.mp hp
      simp only [Option.some.injEq]
      constructor
      · rintro rfl
        exact ⟨by simpa [occursAt] using hpre, fun k hk => absurd hk (by omega)⟩
      · rintro ⟨-, hmin⟩
        by_contra hne
        exact hmin 0 (by omega) (by simpa [occursAt] using hpre)
    · rw [if_neg hp]
      have hnpre : ¬ p <+: c :: t := fun hh => hp ( List.isPrefixOf_iff_prefix.mpr hh)
      constructor
      · intro h
        obtain ⟨i₀, h₀, hi⟩ := Option.map_eq_some'.mp h
        have hfo := ih.mp h₀
        subst hi
        refine ⟨by simpa [occursAt, List.drop_succ_cons] using hfo.1, ?_⟩
        intro k hk
        match k with
        | 0 => simpa [occursAt] using hnpre
        | k + 1 =>
          have := hfo.2 k (by omega)
          simpa [occursAt, List.drop_succ_cons] using this
      · rintro ⟨hocc, hmin⟩
        obtain ⟨i₀, rfl⟩ : ∃ i₀, i = i₀ + 1 := by
          cases i with
          | zero => exact absurd (by simpa [occursAt] using hocc) hnpre
          | succ i₀ => exact ⟨i₀, rfl⟩
        rw [Option.map_eq_some']
        refine ⟨i₀, ih.mpr ⟨?_, ?_⟩, rfl⟩
        · simpa [occursAt, List.drop_succ_cons] using hocc
        · intro k hk
          have := hmin (k + 1) (by omega)
          simpa [occursAt, List.drop_succ_cons] using this

/-- Applying `pyFind` at a first occurrence returns that index. -/
theorem pyFind_eq_of_firstOccAt {p s : List Char} {i : Nat}
    (h : firstOccAt p s i) : pyFind s p = i := by
  simp [pyFind, strFind_eq_some_iff.mpr h]

/-- Predicate `pyContains` is substring occurrence. -/
theorem pyContains_iff_exists {s p : List Char} :
    pyContains s p = true ↔ ∃ k, occursAt p s k := by
  constructor
  · intro h
    obtain ⟨i, hi⟩ := Option.isSome_iff_exists.mp (by simpa [pyContains] using h)
    exact ⟨i, (strFind_eq_some_iff.mp hi).1⟩
  · intro h
    have hfo : firstOccAt p s (Nat.find h) :=
      ⟨Nat.find_spec h, fun k hk => Nat.find_min h hk⟩
    simp [pyContains, strFind_eq_some_iff.mpr hfo]

/-- Slice-index normalisation is the identity on in-range natural indices. -/
theorem sliceIdx_natCast (n k : Nat) (hk : k ≤ n) : sliceIdx n (k : Int) = k := by
  unfold sliceIdx
  rw [if_neg (by omega), Int.toNat_natCast]
  exact min_eq_left hk

/-! ### Claim theorems about the splitter -/

/-- Claim C1. The claim states that concatenating the rows of all output
files, in output-file order, yields exactly the input rows in original
order, each exactly once.  The code violates it: on the two-row table
`[0, 1]` with group size 3 the remainder branch re-appends the rows of
the Python slice `tomoTable[-rem:-1]`, which are already buffered, so the
single output file is `[0, 1, 0]` — row `0` appears twice.  (The
function's own docstring, "split a star file which one line for each
membrane into n files of one membrane", is also contradicted: with the
default group size 1 a two-row table yields one file of two rows.) -/
theorem c1_split_round_trip_fails_on_two_rows :
    splitPysegStarFile [0, 1] 3 = [[0, 1, 0]] ∧
      (splitPysegStarFile [0, 1] 3).flatten ≠ [0, 1] ∧
      splitPysegStarFile [0, 1] 1 = [[0, 1]] ∧
      splitPysegStarFile [0] 1 = [] := by
  decide

/-- Claim C2. The claim states that a table of `n` rows split with group
size `g` yields exactly `⌈n/g⌉` files, each of `g` rows when `g ∣ n`.
The code violates it: for the two-row table `[0, 1]` with `g = 1`
(`⌈2/1⌉ = (2 + 1 - 1) / 1 = 2`) it produces a single file holding both
rows, because the write condition `counter > 1 and counter % j == 0`
skips the write after the first row; and for `[0,1,2,3,4]` with `g = 3`
the final file has `2*rem - 1 = 3` rows instead of `n % g = 2`. -/
theorem c2_split_file_counts_fail :
    (splitPysegStarFile [0, 1] 1).length = 1 ∧
      (splitPysegStarFile [0, 1] 1).length ≠ (2 + 1 - 1) / 1 ∧
      splitPysegStarFile [0, 1, 2, 3, 4] 3 = [[0, 1, 2], [3, 4, 3]] ∧
      ((splitPysegStarFile [0, 1, 2, 3, 4] 3).getLast?.map List.length) ≠
        some (5 % 3) := by
  decide

/-- Claim C7, counterexample. The claim states that an empty input table
makes the splitter fail with a `FormatError`; in fact the function body
raises nothing and returns normally with an empty output-file list. -/
theorem c7_empty_split_returns_normally :
    splitPysegStarFileE ([] : List Nat) 1 = Except.ok [] := by
  rfl

/-- Claim C7, amended. For every empty input table and every group size
`g > 0`, the splitter returns normally with an empty list of output
files (no `FormatError` is raised): the row loop never runs and the
remainder `0 % g = 0` skips the final write. -/
theorem c7_empty_split_ok {α : Type} (j : Nat) (hj : 0 < j) :
    splitPysegStarFileE ([] : List α) j = Except.ok [] := by
  simp [splitPysegStarFileE, splitPysegStarFile]

/-- Witness for claim C7 as amended at group size 1. -/
theorem c7_empty_split_ok_witness :
    0 < 1 ∧ splitPysegStarFileE ([] : List Nat) 1 = Except.ok [] :=
  ⟨Nat.one_pos, c7_empty_split_ok 1 Nat.one_pos⟩

/-! ### Claim theorems about vesicle-id extraction -/

/-- Claim C4. Vesicle-id extraction first strips the directory and the
extension (`removeBaseExt`); if the base name contains `_split_`, the id
is the substring strictly between the first `_id_` (whose length is 4)
and the first `_split_`; otherwise it is everything after the first
`_tid_` (whose length is 5) to the end; in particular `"a_tid_3.mrc"`
yields `"3"` and `"a_id_2_split_4.mrc"` yields `"2"`. -/
theorem c4_vesicle_id_extraction (name : List Char) :
    (∀ i j, firstOccAt idPattern (removeBaseExt name) i →
        firstOccAt splitPattern (removeBaseExt name) j →
        getVesicleIdFromSubtomoName name =
          ((removeBaseExt name).take j).drop (i + 4)) ∧
    ((∀ k, ¬ occursAt splitPattern (removeBaseExt name) k) →
      ∀ i, firstOccAt tidPatten (removeBaseExt name) i →
        getVesicleIdFromSubtomoName name = (removeBaseExt name).drop (i + 5)) ∧
    getVesicleIdFromSubtomoName "a_tid_3.mrc".toList = "3".toList ∧
    getVesicleIdFromSubtomoName "a_id_2_split_4.mrc".toList = "2".toList := by
  refine ⟨?_, ?_, by decide, by decide⟩
  · intro i j hib hjb
    have hcont : pyContains (removeBaseExt name) splitPattern = true :=
      pyContains_iff_exists.mpr ⟨j, hjb.1⟩
    simp only [getVesicleIdFromSubtomoName]
    rw [if_pos hcont, pyFind_eq_of_firstOccAt hib, pyFind_eq_of_firstOccAt hjb]
    have hi4 : i + 4 ≤ (removeBaseExt name).length := by
      have := occursAt_bound (by decide) hib.1
      simpa [idPattern] using this
    have hj7 : j + 7 ≤ (removeBaseExt name).length := by
      have := occursAt_bound (by decide) hjb.1
      simpa [splitPattern] using this
    have hcast : (i : Int) + (idPattern.length : Int) = ((i + 4 : Nat) : Int) := by
      simp [idPattern]
    rw [pySlice, hcast, sliceIdx_natCast _ _ (by omega),
      sliceIdx_natCast _ _ (by omega)]
  · intro hnone i hib
    have hcont : ¬ pyContains (removeBaseExt name) splitPattern = true := by
      intro hb
      obtain ⟨k, hk⟩ := pyContains_iff_exists.mp hb
      exact absurd hk (hnone k)
    simp only [getVesicleIdFromSubtomoName]
    rw [if_neg hcont, pyFind_eq_of_firstOccAt hib]
    have hi5 : i + 5 ≤ (removeBaseExt name).length := by
      have := occursAt_bound (by decide) hib.1
      simpa [tidPatten] using this
    have hcast : (i : Int) + (tidPatten.length : Int) = ((i + 5 : Nat) : Int) := by
      simp [tidPatten]
    rw [pySlice, hcast, sliceIdx_natCast _ _ (by omega),
      sliceIdx_natCast _ _ le_rfl, List.take_length]

/-- Witness for claim C4 at the two example file names. -/
theorem c4_vesicle_id_extraction_witness :
    getVesicleIdFromSubtomoName "a_id_2_split_4.mrc".toList =
      ((removeBaseExt "a_id_2_split_4.mrc".toList).take 6).drop (1 + 4) ∧
    getVesicleIdFromSubtomoName "a_tid_3.mrc".toList =
      (removeBaseExt "a_tid_3.mrc".toList).drop (1 + 5) := by
  constructor
  · exact (c4_vesicle_id_extraction "a_id_2_split_4.mrc".toList).1 1 6
      (by decide) (by decide)
  · refine (c4_vesicle_id_extraction "a_tid_3.mrc".toList).2.1 ?_ 1 (by decide)
    intro k hk
    exact absurd (pyContains_iff_exists.mpr ⟨k, hk⟩) (by decide)

/-- Claim C10. In `_relionTomoStar2Subtomograms`, when the subtomogram
file name contains `tid_` the coordinate group id is set to
`subtomoFn.split('tid_')[1][0]`: only the single character immediately
after the first occurrence of `tid_` (position `i + 4` for the first
occurrence at `i`, provided a character follows and no second `tid_`
starts right there, in which cases Python would raise `IndexError`).
A multi-character vesicle index is therefore truncated, unlike
`_getVesicleIdFromSubtomoName` used by the coordinate-entity path, which
returns the full id: on `"a_tid_25.mrc"` the subtomogram path yields the
single character `'2'` while the coordinate path yields `"25"`. -/
theorem c10_subtomo_group_id_truncates :
    (∀ (fn : List Char) (i : Nat), firstOccAt tidBarePattern fn i →
        i + 4 < fn.length → ¬ tidBarePattern <+: fn.drop (i + 4) →
        relionSubtomoGroupId fn = fn.get? (i + 4)) ∧
    relionSubtomoGroupId "a_tid_25.mrc".toList = some '2' ∧
    getVesicleIdFromSubtomoName "a_tid_25.mrc".toList = "25".toList := by
  suffices hgen : ∀ (fn : List Char) (i : Nat), firstOccAt tidBarePattern fn i →
      i + 4 < fn.length → ¬ tidBarePattern <+: fn.drop (i + 4) →
      relionSubtomoGroupId fn = fn.get? (i + 4) by
    refine ⟨hgen, ?_, by decide⟩
    have h2 := hgen "a_tid_25.mrc".toList 2 (by decide) (by decide) (by decide)
    rw [h2]
    decide
  intro fn i hfo hlen hnadj
  have hcont : pyContains fn tidBarePattern = true :=
    pyContains_iff_exists.mpr ⟨i, hfo.1⟩
  have hfind : strFind tidBarePattern fn = some i := strFind_eq_some_iff.mpr hfo
  have hne : tidBarePattern ≠ [] := by decide
  rw [relionSubtomoGroupId, if_pos hcont, pySplitStr, dif_neg hne]
  split
  · next heq =>
    rw [hfind] at heq
    exact absurd heq (by simp)
  · next i₀ heq =>
    rw [hfind, Option.some.injEq] at heq
    subst heq
    have hlen4 : tidBarePattern.length = 4 := by decide
    rw [hlen4, List.get?_cons_succ]
    rw [pySplitStr, dif_neg hne]
    split
    · next heq2 =>
      simp [List.head?_drop, List.get?_eq_getElem?]
    · next k heq2 =>
      have hk0 : k ≠ 0 := by
        intro hzero
        subst hzero
        have hocc := (strFind_eq_some_iff.mp heq2).1
        rw [occursAt, List.drop_zero] at hocc
        exact hnadj hocc
      rw [List.get?_cons_zero]
      simp only [Option.some_bind]
      rw [List.head?_take, if_neg hk0, List.head?_drop, List.get?_eq_getElem?]

/-- Witness for claim C10 on a concrete three-digit vesicle index. -/
theorem c10_subtomo_group_id_truncates_witness :
    relionSubtomoGroupId "b_tid_777.mrc".toList = "b_tid_777.mrc".toList.get? 6 :=
  c10_subtomo_group_id_truncates.1 "b_tid_777.mrc".toList 2 (by decide)
    (by decide) (by decide)

/-! ### Claim theorem about the subtomogram origin (C9) -/

/-- The first component of `manageIhDims` selects the object count `n`
exactly for `.mrc`/`.map` files with `z = 1` and `n ≠ 1`. -/
theorem manageIhDims_fst (fileName : List Char) (z n : Int) :
    (manageIhDims fileName z n).1 =
      if (pyEndsWith fileName ".mrc".toList
            || pyEndsWith fileName ".map".toList) ∧ z = 1 ∧ n ≠ 1
      then n else z := by
  unfold manageIhDims
  by_cases h1 : (pyEndsWith fileName ".mrc".toList
      || pyEndsWith fileName ".map".toList) = true
  · rw [if_pos h1]
    by_cases h2 : z = 1 ∧ n ≠ 1
    · rw [if_pos (by simp [h2.1, h2.2]), if_pos ⟨h1, h2⟩]
    · rw [if_neg (by simpa using h2), if_neg (by tauto)]
  · rw [if_neg h1, if_neg (by tauto)]

/-- Claim C9. Each component of the origin shift assigned to a produced
subtomogram equals the negated half of the corresponding voxel dimension
multiplied by the sampling rate, where the z dimension is replaced by the
stack count `n` exactly when the file ends in `.mrc` or `.map`, `z = 1`
and `n ≠ 1` (via `manageIhDims`). -/
theorem c9_subtomo_origin_shifts (fileName : List Char) (x y z n : Int)
    (sr : ℚ) :
    subtomoOriginShifts fileName x y z n sr =
      (-((x : ℚ) / 2 * sr), -((y : ℚ) / 2 * sr),
        -((((if (pyEndsWith fileName ".mrc".toList
                || pyEndsWith fileName ".map".toList) ∧ z = 1 ∧ n ≠ 1
              then n else z) : Int) : ℚ) / 2 * sr)) := by
  rw [subtomoOriginShifts]
  simp only [manageIhDims_fst, Prod.mk.injEq]
  refine ⟨by ring, by ring, ?_⟩
  split_ifs <;> ring

/-! ### The pre-installation compiler check (`__init__.py` lines 82-115
and 203-220)

The detected major versions come from `subprocess` calls
(`_getCompilerVer`), so they are parameters here. -/

/-- Embedding of `_checkCompilingDrivers`: empty string when the check passes,
otherwise the formatted error message (Python `'%s-%i detected. '
'%s-%i detected. ' 'Required conditions: ...'` with `GCC = 'gcc'`,
`GPP = 'g++'`, `minVer = 5`, `maxVer = 12`). -/
def checkCompilingDrivers (gccVersion gppVersion : Int) : String :=
  if gccVersion ≠ gppVersion ∨
      (gccVersion = gppVersion ∧ (gccVersion < 5 ∨ gccVersion > 12)) then
    "gcc" ++ "-" ++ toString gccVersion ++ " detected. " ++
      "g++" ++ "-" ++ toString gppVersion ++ " detected. " ++
      "Required conditions: " ++
      "[1] Both compilers version must be the same. " ++
      "[2] Compiler version must be in range [" ++ toString (5 : Int) ++
      ", " ++ toString (12 : Int) ++ "]."
  else ""

/-- The value bound to `installationCmd` in `defineBinaries`: either the
cleanup-and-echo shell string (error branch) or the list of normal
installation steps, each a command paired with its target files.  The
normal steps' construction (conda commands, download URLs, build
commands) involves only external configuration and is abstracted as the
`normalSteps` parameter. -/
inductive InstallationCmd where
  | errorCleanup (cmd : String)
  | steps (cmds : List (String × List String))
deriving DecidableEq

/-- The branch taken by `defineBinaries` on `compErrMsg`
(`__init__.py` lines 82-108): a non-empty message selects
`'rm -rf %s && echo "%s" '`, otherwise the normal step list. -/
def defineBinariesInstallationCmd (gccVersion gppVersion : Int)
    (pysegHome : String) (normalSteps : List (String × List String)) :
    InstallationCmd :=
  let compErrMsg := checkCompilingDrivers gccVersion gppVersion
  if compErrMsg ≠ "" then
    InstallationCmd.errorCleanup
      ("rm -rf " ++ pysegHome ++ " && echo \"" ++ compErrMsg ++ "\" ")
  else
    InstallationCmd.steps normalSteps

/-- Claim C8. The compiler check's message is non-empty iff the two
detected versions differ or their common value lies outside `[5, 12]`;
a non-empty message is exactly the format string reporting both detected
versions and both range bounds; and a non-empty message routes
`defineBinaries` to the cleanup/echo command, never to the normal
installation step sequence (which is emitted exactly when the message is
empty). -/
theorem c8_compiler_check (gcc gpp : Int) :
    (checkCompilingDrivers gcc gpp ≠ "" ↔
      gcc ≠ gpp ∨ gcc < 5 ∨ 12 < gcc) ∧
    (checkCompilingDrivers gcc gpp ≠ "" →
      checkCompilingDrivers gcc gpp =
        "gcc-" ++ toString gcc ++ " detected. g++-" ++ toString gpp ++
          " detected. Required conditions: [1] Both compilers version must be the same. [2] Compiler version must be in range [5, 12].") ∧
    (∀ (pysegHome : String) (normalSteps : List (String × List String)),
      (checkCompilingDrivers gcc gpp ≠ "" →
        defineBinariesInstallationCmd gcc gpp pysegHome normalSteps =
          InstallationCmd.errorCleanup
            ("rm -rf " ++ pysegHome ++ " && echo \"" ++
              checkCompilingDrivers gcc gpp ++ "\" ")) ∧
      (checkCompilingDrivers gcc gpp = "" →
        defineBinariesInstallationCmd gcc gpp pysegHome normalSteps =
          InstallationCmd.steps normalSteps)) := by
  have hmsg : gcc ≠ gpp ∨ (gcc = gpp ∧ (gcc < 5 ∨ gcc > 12)) ↔
      gcc ≠ gpp ∨ gcc < 5 ∨ 12 < gcc := by
    constructor
    · rintro (h | ⟨-, h⟩)
      · exact Or.inl h
      · exact Or.inr (by omega)
    · rintro (h | h)
      · exact Or.inl h
      · by_cases he : gcc = gpp
        · exact Or.inr ⟨he, by omega⟩
        · exact Or.inl he
  have h5 : toString (5 : Int) = "5" := rfl
  have h12 : toString (12 : Int) = "12" := rfl
  refine ⟨?_, ?_, ?_⟩
  · rw [checkCompilingDrivers]
    by_cases hc : gcc ≠ gpp ∨ (gcc = gpp ∧ (gcc < 5 ∨ gcc > 12))
    · rw [if_pos hc]
      simp only [← hmsg, iff_true_intro hc, iff_true]
      intro habs
      have hlen := congrArg String.length habs
      simp only [String.length_append, show ("" : String).length = 0 from rfl,
        show ("gcc" : String).length = 3 from rfl] at hlen
      omega
    · rw [if_neg hc]
      simp only [ne_eq, not_true_eq_false, ← hmsg]
      tauto
  · intro hne
    rw [checkCompilingDrivers] at hne ⊢
    by_cases hc : gcc ≠ gpp ∨ (gcc = gpp ∧ (gcc < 5 ∨ gcc > 12))
    · rw [if_pos hc, h5, h12]
      simp [String.append_assoc]
    · rw [if_neg hc] at hne
      exact absurd rfl hne
  · intro pysegHome normalSteps
    constructor
    · intro hne
      rw [defineBinariesInstallationCmd]
      simp only [if_pos hne]
    · intro heq
      rw [defineBinariesInstallationCmd]
      simp [heq]

/-- Witness for claim C8 at detected versions gcc 4 / g++ 4 (equal but
below the supported range). -/
theorem c8_compiler_check_witness :
    checkCompilingDrivers 4 4 ≠ "" ∧
    checkCompilingDrivers 4 4 =
      "gcc-" ++ toString (4 : Int) ++ " detected. g++-" ++ toString (4 : Int) ++
        " detected. Required conditions: [1] Both compilers version must be the same. [2] Compiler version must be in range [5, 12]." ∧
    defineBinariesInstallationCmd 4 4 "pysegHome" [] =
      InstallationCmd.errorCleanup
        ("rm -rf " ++ "pysegHome" ++ " && echo \"" ++
          checkCompilingDrivers 4 4 ++ "\" ") := by
  have hne : checkCompilingDrivers 4 4 ≠ "" := by decide
  exact ⟨hne, (c8_compiler_check 4 4).2.1 hne,
    ((c8_compiler_check 4 4).2.2 "pysegHome" []).1 hne⟩

/-! ### Reading particles with missing columns
(`readParticlesStarFile`, `convert.py` lines 93-114)

The star-file labels come from `reliontomo.convert.convert30_tomo` (an
external library) and from `pyseg.constants` (not among the provided
sources); the properties proved below do not depend on the concrete
label strings, only on their being the declared required-label lists. -/

def RELION_SUBTOMO_STAR : Nat := 0

def PYSEG_PICKING_STAR : Nat := 1

def TOMO_NAME : String := "rlnMicrographName"

def SUBTOMO_NAME : String := "rlnImageName"

def COORD_X : String := "rlnCoordinateX"

def COORD_Y : String := "rlnCoordinateY"

def COORD_Z : String := "rlnCoordinateZ"

def ROT : String := "rlnAngleRot"

def TILT : String := "rlnAngleTilt"

def PSI : String := "rlnAnglePsi"

def SHIFTX : String := "rlnOriginX"

def SHIFTY : String := "rlnOriginY"

def SHIFTZ : String := "rlnOriginZ"

def TILT_PRIOR : String := "rlnAngleTiltPrior"

def PSI_PRIOR : String := "rlnAnglePsiPrior"

/-- Modelled from the spec: `VESICLE` is the vesicle/segmentation-path
column declared in `pyseg.constants`, a module not among the provided
sources; the spec fixes only that it is a distinguished column name. -/
def VESICLE : String := "psSegImage"

/-- Modelled from the spec: `SEGMENTATION` column name from
`pyseg.constants` (module not among the provided sources). -/
def SEGMENTATION : String := "psSegLabel"

/-- Modelled from the spec: the declared "not found" sentinel from
`pyseg.constants` (module not among the provided sources). -/
def NOT_FOUND : String := "Not_found"

/-- The required labels of a Relion subtomogram star file (imported from
the external `reliontomo` library in `convert.py`). -/
def RELION_TOMO_LABELS : List String :=
  [TOMO_NAME, SUBTOMO_NAME, COORD_X, COORD_Y, COORD_Z, SHIFTX, SHIFTY,
    SHIFTZ, ROT, TILT, PSI, TILT_PRIOR, PSI_PRIOR]

/-- List `PICKING_LABELS` from `convert.py` lines 40-48. -/
def PICKING_LABELS : List String :=
  [TOMO_NAME, VESICLE, SEGMENTATION, COORD_X, COORD_Y, COORD_Z, ROT,
    TILT, PSI]

/-- Python `str.replace` (all occurrences, non-empty pattern). -/
def pyReplace (s old new : List Char) : List Char :=
  List.intercalate new (pySplitStr old s)

/-- A star-table cell as consumed by the converters: a name/path string
or a number (the textual parsing of numeric cells is abstracted away, so
a `str` cell here stands for a value that `float()` rejects). -/
inductive PyVal where
  | str (s : String)
  | num (q : ℚ)
deriving DecidableEq

/-- A table row: the cells of the table's columns, keyed by label. -/
abbrev StarRow := List (String × PyVal)

/-- A raised Python exception, identified by its kind. -/
structure PyError where
  kind : String
deriving DecidableEq

/-- Python `row.get(label)` with no default: the cell, or Python `None`
(here `Option.none`) when the row lacks the column. -/
def rowGet? (row : StarRow) (label : String) : Option PyVal :=
  (row.find? (fun p => p.1 = label)).map (fun p => p.2)

/-- Python `row.get(label, default)`. -/
def rowGetD (row : StarRow) (label : String) (dflt : PyVal) : PyVal :=
  (rowGet? row label).getD dflt

/-- Python `float(...)`: returns the number, or raises `ValueError` on a
cell that is not numeric. -/
def pyFloat : PyVal → Except PyError ℚ
  | PyVal.num q => Except.ok q
  | PyVal.str _ => Except.error ⟨"ValueError"⟩

/-- A cell consumed as a file-name string; a numeric cell raises
`TypeError` in the consuming path functions. -/
def pyStrOf : PyVal → Except PyError (List Char)
  | PyVal.str s => Except.ok s.toList
  | PyVal.num _ => Except.error ⟨"TypeError"⟩

/-- Evaluation of `basename(row.get(TOMO_NAME))` (`convert.py` line
257): the `get` has no default, so a missing column yields Python `None`
and `os.path.basename` raises `TypeError`; a numeric cell likewise. -/
def basenameOfVal : Option PyVal → Except PyError (List Char)
  | some (PyVal.str s) => Except.ok (pyBasename s.toList)
  | some (PyVal.num _) => Except.error ⟨"TypeError"⟩
  | none => Except.error ⟨"TypeError"⟩

theorem ok_bind {α β : Type} (a : α) (f : α → Except PyError β) :
    (Except.ok a : Except PyError α) >>= f = f a := rfl

theorem error_bind {α β : Type} (e : PyError) (f : α → Except PyError β) :
    (Except.error e : Except PyError α) >>= f = Except.error e := rfl

/-- Embedding of `Table.hasAllColumns`. -/
def hasAllColumns (cols labels : List String) : Bool :=
  labels.all (fun l => cols.contains l)

/-- List `missingCols` as computed in `readParticlesStarFile` line 106. -/
def missingColumns (cols labels : List String) : List String :=
  labels.filter (fun n => ¬ cols.contains n)

/-- The warning value computed in `readParticlesStarFile` lines 105-109:
`none` when every required label is present, otherwise the formatted
message listing each missing label wrapped in asterisks. -/
def starFileWarning (cols labels : List String) : Option String :=
  if hasAllColumns cols labels then none
  else
    some ("Columns " ++
      String.intercalate "  "
        ((missingColumns cols labels).map (fun colName => "*" ++ colName ++ "*")) ++
      "\nwere not found in the star file provided.\nThe corresponding numerical values will be considered as 0.")

/-- A coordinate entity produced by `_pysegStar2Coords3D`, with the
numeric fields read through `row.get(label, 0)` and `float(...)` (the
transform fields via `_getTransformMatrix`). -/
structure Coord3DE where
  volId : Nat
  shiftX : ℚ
  shiftY : ℚ
  shiftZ : ℚ
  rot : ℚ
  tilt : ℚ
  psi : ℚ
  x : ℚ
  y : ℚ
  z : ℚ
  groupId : List Char
deriving DecidableEq

/-- Embedding of `managePath4Sqlite` (`convert.py` lines 212-213): both
branches of the source conditional return `fpath` unchanged. -/
def managePath4Sqlite (fpath : PyVal) : PyVal :=
  fpath

/-- One row of the inner loop of `_pysegStar2Coords3D` (`convert.py`
lines 255-272; numeric reads in `float()`-call order, shifts and angles
via `_getTransformMatrix` lines 188-196): evaluates
`basename(row.get(TOMO_NAME))` — the raising spot when the column is
missing — and on a basename match builds the coordinate, otherwise
skips the row. -/
def pysegConvertRow (tomoNum : Nat) (tomoBase : List Char)
    (row : StarRow) : Except PyError (Option Coord3DE) := do
  let bn ← basenameOfVal (rowGet? row TOMO_NAME)
  if bn = tomoBase then do
    let sxV ← pyFloat (rowGetD row SHIFTX (PyVal.num 0))
    let syV ← pyFloat (rowGetD row SHIFTY (PyVal.num 0))
    let szV ← pyFloat (rowGetD row SHIFTZ (PyVal.num 0))
    let rotV ← pyFloat (rowGetD row ROT (PyVal.num 0))
    let tiltV ← pyFloat (rowGetD row TILT (PyVal.num 0))
    let psiV ← pyFloat (rowGetD row PSI (PyVal.num 0))
    let xV ← pyFloat (rowGetD row COORD_X (PyVal.num 0))
    let yV ← pyFloat (rowGetD row COORD_Y (PyVal.num 0))
    let zV ← pyFloat (rowGetD row COORD_Z (PyVal.num 0))
    let subName ← pyStrOf (rowGetD row SUBTOMO_NAME (PyVal.str NOT_FOUND))
    Except.ok (some
      { volId := tomoNum, shiftX := sxV, shiftY := syV, shiftZ := szV,
        rot := rotV, tilt := tiltV, psi := psiV, x := xV, y := yV, z := zV,
        groupId := getVesicleIdFromSubtomoName subName })
  else
    Except.ok none

/-- The inner row loop of `_pysegStar2Coords3D` for one tomogram. -/
def pysegConvertRows (tomoNum : Nat) (tomoBase : List Char) :
    List StarRow → Except PyError (List Coord3DE)
  | [] => Except.ok []
  | row :: rest => do
      let c ← pysegConvertRow tomoNum tomoBase row
      let cs ← pysegConvertRows tomoNum tomoBase rest
      Except.ok (match c with | some coord => coord :: cs | none => cs)

/-- The outer loop of `_pysegStar2Coords3D`: enumerate the protocol's
tomograms, each file name with `:mrc` stripped and compared by
basename. -/
def pysegStar2Coords3DGo : Nat → List String → List StarRow →
    Except PyError (List Coord3DE)
  | _, [], _ => Except.ok []
  | tomoNum, t :: ts, rows => do
      let cs ← pysegConvertRows tomoNum
        (pyBasename (pyReplace t.toList ":mrc".toList [])) rows
      let rest ← pysegStar2Coords3DGo (tomoNum + 1) ts rows
      Except.ok (cs ++ rest)

/-- Embedding of `_pysegStar2Coords3D` (`convert.py` lines 252-272). -/
def pysegStar2Coords3D (tomoNames : List String) (rows : List StarRow) :
    Except PyError (List Coord3DE) :=
  pysegStar2Coords3DGo 0 tomoNames rows

/-- A subtomogram entity produced by `_relionTomoStar2Subtomograms`. -/
structure RelSubtomoE where
  volName : PyVal
  fileName : PyVal
  classId : PyVal
  x : ℚ
  y : ℚ
  z : ℚ
  tiltPrior : ℚ
  psiPrior : ℚ
  shiftX : ℚ
  shiftY : ℚ
  shiftZ : ℚ
  rot : ℚ
  tilt : ℚ
  psi : ℚ
  originShifts : ℚ × ℚ × ℚ
  groupId : Option Char
deriving DecidableEq

/-- The group-id assignment of `_relionTomoStar2Subtomograms` with its
error channel: when the file name contains `tid_`, Python raises
`IndexError` exactly where `relionSubtomoGroupId` is `none`. -/
def relionGroupIdE (subStr : List Char) : Except PyError (Option Char) :=
  if pyContains subStr tidBarePattern then
    match relionSubtomoGroupId subStr with
    | some c => Except.ok (some c)
    | none => Except.error ⟨"IndexError"⟩
  else Except.ok none

/-- One row of `_relionTomoStar2Subtomograms` (`convert.py` lines
130-185): every `row.get` carries a default, the dimensions come from
the image header (the `dims` parameter), the origin is set via
`manageIhDims`, and the group id is the first character after `tid_`
(the `IndexError` spots modelled as errors). -/
def relionConvertRow (dims : List Char → Int × Int × Int × Int)
    (samplingRate : ℚ) (row : StarRow) : Except PyError RelSubtomoE := do
  let volname := rowGetD row TOMO_NAME (PyVal.str NOT_FOUND)
  let subtomoFn := rowGetD row SUBTOMO_NAME (PyVal.str NOT_FOUND)
  let xV ← pyFloat (rowGetD row COORD_X (PyVal.num 0))
  let yV ← pyFloat (rowGetD row COORD_Y (PyVal.num 0))
  let zV ← pyFloat (rowGetD row COORD_Z (PyVal.num 0))
  let sxV ← pyFloat (rowGetD row SHIFTX (PyVal.num 0))
  let syV ← pyFloat (rowGetD row SHIFTY (PyVal.num 0))
  let szV ← pyFloat (rowGetD row SHIFTZ (PyVal.num 0))
  let rotV ← pyFloat (rowGetD row ROT (PyVal.num 0))
  let tiltV ← pyFloat (rowGetD row TILT (PyVal.num 0))
  let psiV ← pyFloat (rowGetD row PSI (PyVal.num 0))
  let tiltPr ← pyFloat (rowGetD row TILT_PRIOR (PyVal.num 0))
  let psiPr ← pyFloat (rowGetD row PSI_PRIOR (PyVal.num 0))
  let subStr ← pyStrOf subtomoFn
  let gid ← relionGroupIdE subStr
  let d := dims subStr
  Except.ok
    { volName := managePath4Sqlite volname
      fileName := managePath4Sqlite subtomoFn
      classId := rowGetD row "rlnClassNumber" (PyVal.num 0)
      x := xV, y := yV, z := zV
      tiltPrior := tiltPr, psiPrior := psiPr
      shiftX := sxV, shiftY := syV, shiftZ := szV
      rot := rotV, tilt := tiltV, psi := psiV
      originShifts :=
        subtomoOriginShifts subStr d.1 d.2.1 d.2.2.1 d.2.2.2 samplingRate
      groupId := gid }

/-- The row loop of `_relionTomoStar2Subtomograms`. -/
def relionConvertRows (dims : List Char → Int × Int × Int × Int)
    (samplingRate : ℚ) : List StarRow → Except PyError (List RelSubtomoE)
  | [] => Except.ok []
  | row :: rest => do
      let e ← relionConvertRow dims samplingRate row
      let es ← relionConvertRows dims samplingRate rest
      Except.ok (e :: es)

/-- Embedding of `_relionTomoStar2Subtomograms`: `zip` with the
protocol's input subtomograms truncates the table to the input set's
size. -/
def relionStar2Subtomograms (dims : List Char → Int × Int × Int × Int)
    (samplingRate : ℚ) (nInputSubtomos : Nat) (rows : List StarRow) :
    Except PyError (List RelSubtomoE) :=
  relionConvertRows dims samplingRate (rows.take nInputSubtomos)

/-- The entities produced by `readParticlesStarFile`, by file type. -/
inductive ParticleEntities where
  | subtomos (l : List RelSubtomoE)
  | coords (l : List Coord3DE)
deriving DecidableEq

/-- The required-label list chosen by `readParticlesStarFile` for the
given file type. -/
def requiredLabels (fileType : Nat) : List String :=
  if fileType = RELION_SUBTOMO_STAR then RELION_TOMO_LABELS
  else PICKING_LABELS

/-- Embedding of `readParticlesStarFile` (`convert.py` lines 93-114):
the entity conversion runs first (lines 98-103) and may raise; only then
is the missing-column warning computed (lines 105-109). -/
def readParticlesStarFile (fileType : Nat)
    (dims : List Char → Int × Int × Int × Int) (samplingRate : ℚ)
    (nInputSubtomos : Nat) (tomoNames : List String) (cols : List String)
    (rows : List StarRow) :
    Except PyError (Option String × ParticleEntities) := do
  let entities ←
    if fileType = RELION_SUBTOMO_STAR then do
      let l ← relionStar2Subtomograms dims samplingRate nInputSubtomos rows
      Except.ok (ParticleEntities.subtomos l)
    else do
      let l ← pysegStar2Coords3D tomoNames rows
      Except.ok (ParticleEntities.coords l)
  Except.ok (starFileWarning cols (requiredLabels fileType), entities)

/-- The cell is numeric or absent, so a defaulted numeric get floats. -/
def isNumOrAbsent : Option PyVal → Bool
  | some (PyVal.num _) => true
  | some (PyVal.str _) => false
  | none => true

/-- The cell is present and holds a string. -/
def isStrCell : Option PyVal → Bool
  | some (PyVal.str _) => true
  | some (PyVal.num _) => false
  | none => false

/-- The subtomogram-name cell, when present, is a string, and when that
string contains `tid_` a usable character follows its first occurrence
(otherwise the relion path raises `IndexError`). -/
def subtomoNameOk (row : StarRow) : Bool :=
  match rowGet? row SUBTOMO_NAME with
  | some (PyVal.str s) =>
      !(pyContains s.toList tidBarePattern) ||
        (relionSubtomoGroupId s.toList).isSome
  | some (PyVal.num _) => false
  | none => true

/-- The labels whose cells the converters pass to `float()`. -/
def numericConvertLabels : List String :=
  [COORD_X, COORD_Y, COORD_Z, SHIFTX, SHIFTY, SHIFTZ, ROT, TILT, PSI,
    TILT_PRIOR, PSI_PRIOR]

/-- Well-typedness of one row: the tomogram-name cell is present and a
string (the picking path reads it with no default and takes its
basename), the subtomogram name is usable, and every numerically
consumed cell is a number when present. -/
def rowWellTyped (row : StarRow) : Bool :=
  isStrCell (rowGet? row TOMO_NAME) && subtomoNameOk row &&
    numericConvertLabels.all (fun l => isNumOrAbsent (rowGet? row l))

/-- The number a defaulted numeric get converts to. -/
def numCellD (row : StarRow) (label : String) (q : ℚ) : ℚ :=
  match rowGet? row label with
  | some (PyVal.num m) => m
  | some (PyVal.str _) => q
  | none => q

/-- The subtomogram name (the sentinel when the column is absent). -/
def subNameOf (row : StarRow) : List Char :=
  match rowGet? row SUBTOMO_NAME with
  | some (PyVal.str s) => s.toList
  | some (PyVal.num _) => NOT_FOUND.toList
  | none => NOT_FOUND.toList

/-- The tomogram name string of a well-typed row. -/
def tomoNameStrOf (row : StarRow) : List Char :=
  match rowGet? row TOMO_NAME with
  | some (PyVal.str s) => s.toList
  | some (PyVal.num _) => []
  | none => []

theorem pyFloat_rowGetD (row : StarRow) (label : String) (q : ℚ)
    (h : isNumOrAbsent (rowGet? row label) = true) :
    pyFloat (rowGetD row label (PyVal.num q)) =
      Except.ok (numCellD row label q) := by
  cases hv : rowGet? row label with
  | none => simp [rowGetD, numCellD, pyFloat, hv]
  | some v =>
    cases v with
    | num m => simp [rowGetD, numCellD, pyFloat, hv]
    | str s => simp [isNumOrAbsent, hv] at h

theorem pyStrOf_rowGetD (row : StarRow) (h : subtomoNameOk row = true) :
    pyStrOf (rowGetD row SUBTOMO_NAME (PyVal.str NOT_FOUND)) =
      Except.ok (subNameOf row) := by
  cases hv : rowGet? row SUBTOMO_NAME with
  | none => simp [rowGetD, subNameOf, pyStrOf, hv]
  | some v =>
    cases v with
    | str s => simp [rowGetD, subNameOf, pyStrOf, hv]
    | num m => simp [subtomoNameOk, hv] at h

theorem basenameOfVal_ok (row : StarRow)
    (h : isStrCell (rowGet? row TOMO_NAME) = true) :
    basenameOfVal (rowGet? row TOMO_NAME) =
      Except.ok (pyBasename (tomoNameStrOf row)) := by
  cases hv : rowGet? row TOMO_NAME with
  | none => simp [isStrCell, hv] at h
  | some v =>
    cases v with
    | str s => simp [basenameOfVal, tomoNameStrOf, hv]
    | num m => simp [isStrCell, hv] at h

theorem gid_of_wellTyped (row : StarRow) (h : subtomoNameOk row = true) :
    relionGroupIdE (subNameOf row) =
      Except.ok (relionSubtomoGroupId (subNameOf row)) := by
  rw [relionGroupIdE]
  cases hv : rowGet? row SUBTOMO_NAME with
  | none =>
    have hsn : subNameOf row = NOT_FOUND.toList := by simp [subNameOf, hv]
    rw [hsn, if_neg (by decide), relionSubtomoGroupId, if_neg (by decide)]
  | some v =>
    cases v with
    | num m => simp [subtomoNameOk, hv] at h
    | str s =>
      have hsn : subNameOf row = s.toList := by simp [subNameOf, hv]
      rw [hsn]
      by_cases hc : pyContains s.toList tidBarePattern = true
      · rw [if_pos hc]
        have hsome : (relionSubtomoGroupId s.toList).isSome = true := by
          have h2 : pyContains s.toList tidBarePattern = false ∨
              (relionSubtomoGroupId s.toList).isSome = true := by
            simpa [subtomoNameOk, hv] using h
          rcases h2 with h2 | h2
          · rw [h2] at hc
            exact Bool.noConfusion hc
          · exact h2
        obtain ⟨c, hcval⟩ := Option.isSome_iff_exists.mp hsome
        rw [hcval]
      · rw [if_neg hc, relionSubtomoGroupId, if_neg hc]

/-- A get on a label outside the table's column set yields Python
`None` (rows expose only the table's columns). -/
theorem rowGet?_eq_none_of_missing {row : StarRow} {cols : List String}
    (hk : ∀ p ∈ row, p.1 ∈ cols) {label : String} (hl : label ∉ cols) :
    rowGet? row label = none := by
  rw [rowGet?]
  have hnone : row.find? (fun p => p.1 = label) = none := by
    rw [List.find?_eq_none]
    intro p hp
    simp only [decide_eq_true_eq]
    intro heq
    exact hl (heq ▸ hk p hp)
  rw [hnone]
  rfl

/-- Closed form of one picking-path row conversion on a well-typed
row. -/
theorem pysegConvertRow_ok (tomoNum : Nat) (tomoBase : List Char)
    (row : StarRow) (hwt : rowWellTyped row = true) :
    pysegConvertRow tomoNum tomoBase row =
      Except.ok
        (if pyBasename (tomoNameStrOf row) = tomoBase then
          some
            { volId := tomoNum
              shiftX := numCellD row SHIFTX 0
              shiftY := numCellD row SHIFTY 0
              shiftZ := numCellD row SHIFTZ 0
              rot := numCellD row ROT 0
              tilt := numCellD row TILT 0
              psi := numCellD row PSI 0
              x := numCellD row COORD_X 0
              y := numCellD row COORD_Y 0
              z := numCellD row COORD_Z 0
              groupId := getVesicleIdFromSubtomoName (subNameOf row) }
        else none) := by
  have hparts : (isStrCell (rowGet? row TOMO_NAME) = true ∧
      subtomoNameOk row = true) ∧
      ∀ l ∈ numericConvertLabels, isNumOrAbsent (rowGet? row l) = true := by
    simpa [rowWellTyped, Bool.and_eq_true, List.all_eq_true] using hwt
  obtain ⟨⟨h1, h2⟩, hall⟩ := hparts
  have eF : ∀ l ∈ numericConvertLabels,
      pyFloat (rowGetD row l (PyVal.num 0)) =
        Except.ok (numCellD row l 0) :=
    fun l hl => pyFloat_rowGetD row l 0 (hall l hl)
  rw [pysegConvertRow, basenameOfVal_ok row h1, ok_bind]
  by_cases hb : pyBasename (tomoNameStrOf row) = tomoBase
  · rw [if_pos hb, if_pos hb]
    simp only [eF SHIFTX (by simp [numericConvertLabels]),
      eF SHIFTY (by simp [numericConvertLabels]),
      eF SHIFTZ (by simp [numericConvertLabels]),
      eF ROT (by simp [numericConvertLabels]),
      eF TILT (by simp [numericConvertLabels]),
      eF PSI (by simp [numericConvertLabels]),
      eF COORD_X (by simp [numericConvertLabels]),
      eF COORD_Y (by simp [numericConvertLabels]),
      eF COORD_Z (by simp [numericConvertLabels]),
      pyStrOf_rowGetD row h2, ok_bind]
  · rw [if_neg hb, if_neg hb]

/-- The picking-path row loop succeeds on well-typed rows, and every
produced coordinate's x comes from a defaulted numeric get. -/
theorem pysegConvertRows_ok (tomoNum : Nat) (tomoBase : List Char)
    (rows : List StarRow) (hwt : ∀ row ∈ rows, rowWellTyped row = true) :
    ∃ l, pysegConvertRows tomoNum tomoBase rows = Except.ok l ∧
      ∀ c ∈ l, ∃ row ∈ rows, Coord3DE.x c = numCellD row COORD_X 0 := by
  induction rows with
  | nil => exact ⟨[], rfl, by simp⟩
  | cons r rs ih =>
    obtain ⟨l, hl, hx⟩ := ih (fun row hr => hwt row (List.mem_cons_of_mem _ hr))
    rw [pysegConvertRows,
      pysegConvertRow_ok tomoNum tomoBase r (hwt r (List.mem_cons_self r rs)),
      ok_bind, hl, ok_bind]
    by_cases hb : pyBasename (tomoNameStrOf r) = tomoBase
    · rw [if_pos hb]
      refine ⟨_ :: l, rfl, ?_⟩
      intro c hc
      rcases List.mem_cons.mp hc with rfl | hc
      · exact ⟨r, List.mem_cons_self r rs, rfl⟩
      · obtain ⟨row, hrow, hxx⟩ := hx c hc
        exact ⟨row, List.mem_cons_of_mem _ hrow, hxx⟩
    · rw [if_neg hb]
      refine ⟨l, rfl, ?_⟩
      intro c hc
      obtain ⟨row, hrow, hxx⟩ := hx c hc
      exact ⟨row, List.mem_cons_of_mem _ hrow, hxx⟩

/-- The picking-path outer loop succeeds on well-typed rows. -/
theorem pysegStar2Coords3DGo_ok (rows : List StarRow)
    (hwt : ∀ row ∈ rows, rowWellTyped row = true) :
    ∀ (ts : List String) (k : Nat),
      ∃ l, pysegStar2Coords3DGo k ts rows = Except.ok l ∧
        ∀ c ∈ l, ∃ row ∈ rows, Coord3DE.x c = numCellD row COORD_X 0 := by
  intro ts
  induction ts with
  | nil => intro k; exact ⟨[], rfl, by simp⟩
  | cons t ts ih =>
    intro k
    obtain ⟨l1, hl1, hx1⟩ := pysegConvertRows_ok k
      (pyBasename (pyReplace t.toList ":mrc".toList [])) rows hwt
    obtain ⟨l2, hl2, hx2⟩ := ih (k + 1)
    refine ⟨l1 ++ l2, ?_, ?_⟩
    · rw [pysegStar2Coords3DGo, hl1, ok_bind, hl2, ok_bind]
    · intro c hc
      rcases List.mem_append.mp hc with hc | hc
      · exact hx1 c hc
      · exact hx2 c hc

/-- Closed form of one relion-path row conversion on a well-typed
row. -/
theorem relionConvertRow_ok (dims : List Char → Int × Int × Int × Int)
    (samplingRate : ℚ) (row : StarRow) (hwt : rowWellTyped row = true) :
    relionConvertRow dims samplingRate row =
      Except.ok
        { volName := managePath4Sqlite (rowGetD row TOMO_NAME (PyVal.str NOT_FOUND))
          fileName := managePath4Sqlite (rowGetD row SUBTOMO_NAME (PyVal.str NOT_FOUND))
          classId := rowGetD row "rlnClassNumber" (PyVal.num 0)
          x := numCellD row COORD_X 0
          y := numCellD row COORD_Y 0
          z := numCellD row COORD_Z 0
          tiltPrior := numCellD row TILT_PRIOR 0
          psiPrior := numCellD row PSI_PRIOR 0
          shiftX := numCellD row SHIFTX 0
          shiftY := numCellD row SHIFTY 0
          shiftZ := numCellD row SHIFTZ 0
          rot := numCellD row ROT 0
          tilt := numCellD row TILT 0
          psi := numCellD row PSI 0
          originShifts := subtomoOriginShifts (subNameOf row)
            (dims (subNameOf row)).1 (dims (subNameOf row)).2.1
            (dims (subNameOf row)).2.2.1 (dims (subNameOf row)).2.2.2
            samplingRate
          groupId := relionSubtomoGroupId (subNameOf row) } := by
  have hparts : (isStrCell (rowGet? row TOMO_NAME) = true ∧
      subtomoNameOk row = true) ∧
      ∀ l ∈ numericConvertLabels, isNumOrAbsent (rowGet? row l) = true := by
    simpa [rowWellTyped, Bool.and_eq_true, List.all_eq_true] using hwt
  obtain ⟨⟨h1, h2⟩, hall⟩ := hparts
  have eF : ∀ l ∈ numericConvertLabels,
      pyFloat (rowGetD row l (PyVal.num 0)) =
        Except.ok (numCellD row l 0) :=
    fun l hl => pyFloat_rowGetD row l 0 (hall l hl)
  rw [relionConvertRow]
  simp only [eF COORD_X (by simp [numericConvertLabels]),
    eF COORD_Y (by simp [numericConvertLabels]),
    eF COORD_Z (by simp [numericConvertLabels]),
    eF SHIFTX (by simp [numericConvertLabels]),
    eF SHIFTY (by simp [numericConvertLabels]),
    eF SHIFTZ (by simp [numericConvertLabels]),
    eF ROT (by simp [numericConvertLabels]),
    eF TILT (by simp [numericConvertLabels]),
    eF PSI (by simp [numericConvertLabels]),
    eF TILT_PRIOR (by simp [numericConvertLabels]),
    eF PSI_PRIOR (by simp [numericConvertLabels]),
    pyStrOf_rowGetD row h2, ok_bind, gid_of_wellTyped row h2]

/-- The relion-path row loop succeeds on well-typed rows. -/
theorem relionConvertRows_ok (dims : List Char → Int × Int × Int × Int)
    (samplingRate : ℚ) (rows : List StarRow)
    (hwt : ∀ row ∈ rows, rowWellTyped row = true) :
    ∃ l, relionConvertRows dims samplingRate rows = Except.ok l ∧
      ∀ e ∈ l, ∃ row ∈ rows, RelSubtomoE.x e = numCellD row COORD_X 0 := by
  induction rows with
  | nil => exact ⟨[], rfl, by simp⟩
  | cons r rs ih =>
    obtain ⟨l, hl, hx⟩ := ih (fun row hr => hwt row (List.mem_cons_of_mem _ hr))
    rw [relionConvertRows,
      relionConvertRow_ok dims samplingRate r (hwt r (List.mem_cons_self r rs)),
      ok_bind, hl, ok_bind]
    refine ⟨_ :: l, rfl, ?_⟩
    intro e he
    rcases List.mem_cons.mp he with rfl | he
    · exact ⟨r, List.mem_cons_self r rs, rfl⟩
    · obtain ⟨row, hrow, hxx⟩ := hx e he
      exact ⟨row, List.mem_cons_of_mem _ hrow, hxx⟩

/-- Claim C5, counterexample. The claim states that reading a star file
whose column set omits some required labels never raises; but the entity
conversion runs before the warning computation, and the picking path
evaluates `basename(row.get(TOMO_NAME))` with no default, so a picking
star file missing the tomogram-name column raises `TypeError` (Python
`basename(None)`) instead of producing the warning. -/
theorem c5_missing_tomo_name_raises :
    readParticlesStarFile PYSEG_PICKING_STAR (fun _ => (0, 0, 0, 0)) 1 0
        ["t1.mrc"]
        [VESICLE, SEGMENTATION, COORD_X, COORD_Y, COORD_Z, ROT, TILT, PSI]
        [[(COORD_X, PyVal.num 3)]] =
      Except.error ⟨"TypeError"⟩ := by
  have hget : rowGet? [(COORD_X, PyVal.num 3)] TOMO_NAME = none := by decide
  have hrow : ∀ b : List Char,
      pysegConvertRow 0 b [(COORD_X, PyVal.num 3)] =
        Except.error ⟨"TypeError"⟩ := by
    intro b
    rw [pysegConvertRow, hget]
    rfl
  have hrows : ∀ b : List Char,
      pysegConvertRows 0 b [[(COORD_X, PyVal.num 3)]] =
        Except.error ⟨"TypeError"⟩ := by
    intro b
    rw [pysegConvertRows, hrow, error_bind]
  have hgo : pysegStar2Coords3D ["t1.mrc"] [[(COORD_X, PyVal.num 3)]] =
      Except.error ⟨"TypeError"⟩ := by
    rw [pysegStar2Coords3D, pysegStar2Coords3DGo, hrows, error_bind]
  rw [readParticlesStarFile, if_neg (by decide), hgo, error_bind]

/-- Claim C5, amended. For every star file whose column set omits some
of the required labels, provided each row is well-typed — in particular
its tomogram-name cell is present and a string, since the picking path
reads that column with no default and takes its basename — reading
particles returns normally: the result pairs the converted entities with
the warning, which is `none` exactly when every required label is a
column of the table and otherwise is exactly the source's format string
listing `missingColumns` — containing a label iff it is required and
absent, each wrapped distinctly in asterisks — and every missing numeric
field is read as its default 0, so the affected entity fields are 0. -/
theorem c5_missing_column_tolerance (fileType : Nat)
    (dims : List Char → Int × Int × Int × Int) (samplingRate : ℚ)
    (nInputSubtomos : Nat) (tomoNames : List String) (cols : List String)
    (rows : List StarRow)
    (hwt : ∀ row ∈ rows, rowWellTyped row = true) :
    (∃ ents, readParticlesStarFile fileType dims samplingRate
        nInputSubtomos tomoNames cols rows =
      Except.ok (starFileWarning cols (requiredLabels fileType), ents)) ∧
    (starFileWarning cols (requiredLabels fileType) = none ↔
      ∀ l ∈ requiredLabels fileType, l ∈ cols) ∧
    (∀ s, starFileWarning cols (requiredLabels fileType) = some s →
      s = "Columns " ++
        String.intercalate "  "
          ((missingColumns cols (requiredLabels fileType)).map
            (fun colName => "*" ++ colName ++ "*")) ++
        "\nwere not found in the star file provided.\nThe corresponding numerical values will be considered as 0.") ∧
    (∀ l, l ∈ missingColumns cols (requiredLabels fileType) ↔
      l ∈ requiredLabels fileType ∧ l ∉ cols) ∧
    (∀ row ∈ rows, (∀ p ∈ row, p.1 ∈ cols) → ∀ label q, label ∉ cols →
      pyFloat (rowGetD row label (PyVal.num q)) = Except.ok q) ∧
    ((∀ row ∈ rows, ∀ p ∈ row, p.1 ∈ cols) → COORD_X ∉ cols →
      ∀ w ents, readParticlesStarFile fileType dims samplingRate
          nInputSubtomos tomoNames cols rows = Except.ok (w, ents) →
        (∀ l, ents = ParticleEntities.coords l →
          ∀ c ∈ l, Coord3DE.x c = 0) ∧
        (∀ l, ents = ParticleEntities.subtomos l →
          ∀ e ∈ l, RelSubtomoE.x e = 0)) := by
  refine ⟨?_, ?_, ?_, ?_, ?_, ?_⟩
  · by_cases hft : fileType = RELION_SUBTOMO_STAR
    · have hwt2 : ∀ row ∈ rows.take nInputSubtomos, rowWellTyped row = true :=
        fun row hr => hwt row (List.take_subset _ _ hr)
      obtain ⟨l, hl, -⟩ :=
        relionConvertRows_ok dims samplingRate (rows.take nInputSubtomos) hwt2
      refine ⟨ParticleEntities.subtomos l, ?_⟩
      rw [readParticlesStarFile, if_pos hft,
        show relionStar2Subtomograms dims samplingRate nInputSubtomos rows =
          Except.ok l from hl, ok_bind, ok_bind]
    · obtain ⟨l, hl, -⟩ := pysegStar2Coords3DGo_ok rows hwt tomoNames 0
      refine ⟨ParticleEntities.coords l, ?_⟩
      rw [readParticlesStarFile, if_neg hft,
        show pysegStar2Coords3D tomoNames rows = Except.ok l from hl,
        ok_bind, ok_bind]
  · by_cases h : hasAllColumns cols (requiredLabels fileType) = true
    · simp only [starFileWarning, if_pos h, true_iff]
      simpa [hasAllColumns, List.all_eq_true] using h
    · simp only [starFileWarning, if_neg h]
      constructor
      · intro habs
        exact absurd habs (by simp)
      · intro hall
        exact absurd (by simpa [hasAllColumns, List.all_eq_true] using hall) h
  · intro s hs
    by_cases h : hasAllColumns cols (requiredLabels fileType) = true
    · simp only [starFileWarning, if_pos h] at hs
      exact absurd hs (by simp)
    · simp only [starFileWarning, if_neg h, Option.some.injEq] at hs
      exact hs.symm
  · intro l
    simp [missingColumns, List.mem_filter]
  · intro row hr hk label q hl
    have h0 := rowGet?_eq_none_of_missing hk hl
    simp [rowGetD, h0, pyFloat]
  · intro hkeys hx w ents heq
    have hzero : ∀ row ∈ rows, numCellD row COORD_X 0 = 0 := by
      intro row hr
      have h0 := rowGet?_eq_none_of_missing (hkeys row hr) hx
      simp [numCellD, h0]
    by_cases hft : fileType = RELION_SUBTOMO_STAR
    · have hwt2 : ∀ row ∈ rows.take nInputSubtomos, rowWellTyped row = true :=
        fun row hr => hwt row (List.take_subset _ _ hr)
      obtain ⟨l, hl, hxl⟩ :=
        relionConvertRows_ok dims samplingRate (rows.take nInputSubtomos) hwt2
      have hread : readParticlesStarFile fileType dims samplingRate
          nInputSubtomos tomoNames cols rows =
          Except.ok (starFileWarning cols (requiredLabels fileType),
            ParticleEntities.subtomos l) := by
        rw [readParticlesStarFile, if_pos hft,
          show relionStar2Subtomograms dims samplingRate nInputSubtomos rows =
            Except.ok l from hl, ok_bind, ok_bind]
      rw [hread] at heq
      simp only [Except.ok.injEq, Prod.mk.injEq] at heq
      obtain ⟨-, hents⟩ := heq
      subst hents
      constructor
      · intro l0 hl0
        exact absurd hl0 (by simp)
      · intro l0 hl0 e he
        have hll : l = l0 := by simpa using hl0
        subst hll
        obtain ⟨row, hrow, hxe⟩ := hxl e he
        rw [hxe]
        exact hzero row (List.take_subset _ _ hrow)
    · obtain ⟨l, hl, hxl⟩ := pysegStar2Coords3DGo_ok rows hwt tomoNames 0
      have hread : readParticlesStarFile fileType dims samplingRate
          nInputSubtomos tomoNames cols rows =
          Except.ok (starFileWarning cols (requiredLabels fileType),
            ParticleEntities.coords l) := by
        rw [readParticlesStarFile, if_neg hft,
          show pysegStar2Coords3D tomoNames rows = Except.ok l from hl,
          ok_bind, ok_bind]
      rw [hread] at heq
      simp only [Except.ok.injEq, Prod.mk.injEq] at heq
      obtain ⟨-, hents⟩ := heq
      subst hents
      constructor
      · intro l0 hl0 c hc
        have hll : l = l0 := by simpa using hl0
        subst hll
        obtain ⟨row, hrow, hxe⟩ := hxl c hc
        rw [hxe]
        exact hzero row hrow
      · intro l0 hl0
        exact absurd hl0 (by simp)

/-- Witness for claim C5 as amended: a picking-type star file whose
columns omit exactly the x-coordinate label, with a well-typed row. -/
theorem c5_missing_column_tolerance_witness :
    (∃ ents, readParticlesStarFile 1 (fun _ => (0, 0, 0, 0)) 1 0 ["t1.mrc"]
        [TOMO_NAME, VESICLE, SEGMENTATION, COORD_Y, COORD_Z, ROT, TILT, PSI]
        [[(TOMO_NAME, PyVal.str "t1.mrc"), (COORD_Y, PyVal.num 3)]] =
      Except.ok (starFileWarning
        [TOMO_NAME, VESICLE, SEGMENTATION, COORD_Y, COORD_Z, ROT, TILT, PSI]
        (requiredLabels 1), ents)) ∧
    pyFloat (rowGetD [(TOMO_NAME, PyVal.str "t1.mrc"), (COORD_Y, PyVal.num 3)]
        COORD_X (PyVal.num 0)) = Except.ok 0 ∧
    starFileWarning
        [TOMO_NAME, VESICLE, SEGMENTATION, COORD_Y, COORD_Z, ROT, TILT, PSI]
        (requiredLabels 1) =
      some "Columns *rlnCoordinateX*\nwere not found in the star file provided.\nThe corresponding numerical values will be considered as 0." := by
  have h := c5_missing_column_tolerance 1 (fun _ => (0, 0, 0, 0)) 1 0
    ["t1.mrc"]
    [TOMO_NAME, VESICLE, SEGMENTATION, COORD_Y, COORD_Z, ROT, TILT, PSI]
    [[(TOMO_NAME, PyVal.str "t1.mrc"), (COORD_Y, PyVal.num 3)]]
    (by decide)
  refine ⟨h.1, ?_, ?_⟩
  · exact h.2.2.2.2.1 [(TOMO_NAME, PyVal.str "t1.mrc"), (COORD_Y, PyVal.num 3)]
      (by decide) (by decide) COORD_X 0 (by decide)
  · rcases hval : starFileWarning
        [TOMO_NAME, VESICLE, SEGMENTATION, COORD_Y, COORD_Z, ROT, TILT, PSI]
        (requiredLabels 1) with _ | s
    · have hall := h.2.1.mp hval
      exact absurd (hall COORD_X (by decide)) (by decide)
    · rw [h.2.2.1 s hval]
      decide

/-! ### Final pre-segmentation pruning
(`protocol_pre_seg.py`, `_genOutputSetOfTomoMasks` lines 312-377 and
`_removeVesicleFiles` lines 393-398)

`ih.getDimensions` reads image headers, so the voxel extents are the
parameter `dims`; file deletions are collected as the list of removed
paths, in order. -/

/-- Embedding of `_removeVesicleFiles`: deletes the segmentation and its un-segmented
crop, whose path is the segmentation's with `_seg.mrc` replaced by
`.mrc`. -/
def removeVesicleFiles (vesicleSeg : String) : List String :=
  [vesicleSeg,
    String.mk (pyReplace vesicleSeg.toList "_seg.mrc".toList ".mrc".toList)]

/-- One row of the final pre-segmentation table (the columns read by the
loop). -/
structure PreSegRow where
  tomogram : String
  vesicle : String
  vesicleSeg : String
deriving DecidableEq

/-- The tomo-mask entity appended for a kept record. -/
structure TomoMaskE where
  fileName : String
  volName : String
  classId : List Char
deriving DecidableEq

/-- The subtomogram entity appended for a kept record. -/
structure SubTomogramE where
  fileName : String
  volName : String
  classId : List Char
deriving DecidableEq

/-- Mask built from a kept row (`tomoMask.setFileName(vesicleSeg)`,
`setVolName(vesicle)`, class id from the vesicle file name). -/
def mkTomoMaskE (row : PreSegRow) : TomoMaskE :=
  { fileName := row.vesicleSeg
    volName := row.vesicle
    classId := getVesicleIdFromSubtomoName row.vesicle.toList }

/-- Subtomogram built from a kept row (`subtomo.setFileName(vesicle)`,
`setVolName(tomogram)`). -/
def mkSubTomogramE (row : PreSegRow) : SubTomogramE :=
  { fileName := row.vesicle
    volName := row.tomogram
    classId := getVesicleIdFromSubtomoName row.vesicle.toList }

/-- The mutable outputs of `_genOutputSetOfTomoMasks`. -/
structure PreSegOutput where
  masks : List TomoMaskE
  subtomos : List SubTomogramE
  finalRows : List PreSegRow
  nRemoved : Nat
  deletedFiles : List String
deriving DecidableEq

/-- The loop body of `_genOutputSetOfTomoMasks`: remove a record whose
vesicle extent equals its tomogram's extent; else, when size filtering is
requested (`minSize > 0 or minDepth > 0`), remove a record with
`x < minSize or y < minSize or z < minDepth`; otherwise append to the
mask set, the subtomogram set and the final result table. -/
def processPreSegRow (dims : String → Int × Int × Int)
    (minSize minDepth : Int) (acc : PreSegOutput) (row : PreSegRow) :
    PreSegOutput :=
  let v := dims row.vesicle
  if v = dims row.tomogram then
    { acc with
      nRemoved := acc.nRemoved + 1
      deletedFiles := acc.deletedFiles ++ removeVesicleFiles row.vesicleSeg }
  else if (minSize > 0 ∨ minDepth > 0) ∧
      (v.1 < minSize ∨ v.2.1 < minSize ∨ v.2.2 < minDepth) then
    { acc with
      nRemoved := acc.nRemoved + 1
      deletedFiles := acc.deletedFiles ++ removeVesicleFiles row.vesicleSeg }
  else
    { acc with
      masks := acc.masks ++ [mkTomoMaskE row]
      subtomos := acc.subtomos ++ [mkSubTomogramE row]
      finalRows := acc.finalRows ++ [row] }

/-- Embedding of `_genOutputSetOfTomoMasks`: fold the loop body over the final
pre-segmentation table. -/
def genOutputSetOfTomoMasks (dims : String → Int × Int × Int)
    (minSize minDepth : Int) (rows : List PreSegRow) : PreSegOutput :=
  rows.foldl (processPreSegRow dims minSize minDepth)
    { masks := [], subtomos := [], finalRows := [], nRemoved := 0,
      deletedFiles := [] }

/-- The claim's pruning condition: the record's voxel extent exactly
equals its parent tomogram's extent, or size filtering is enabled and
`x` or `y` is below the minimum width/height or `z` is below the minimum
depth. -/
def prunedRecord (dims : String → Int × Int × Int)
    (minSize minDepth : Int) (row : PreSegRow) : Prop :=
  dims row.vesicle = dims row.tomogram ∨
    ((minSize > 0 ∨ minDepth > 0) ∧
      ((dims row.vesicle).1 < minSize ∨ (dims row.vesicle).2.1 < minSize ∨
        (dims row.vesicle).2.2 < minDepth))

instance (dims : String → Int × Int × Int) (minSize minDepth : Int)
    (row : PreSegRow) : Decidable (prunedRecord dims minSize minDepth row) := by
  unfold prunedRecord
  infer_instance

/-- Closed form of the `_genOutputSetOfTomoMasks` loop from any initial
accumulator state. -/
theorem genOutputSetOfTomoMasks_go (dims : String → Int × Int × Int)
    (minSize minDepth : Int) :
    ∀ (rows : List PreSegRow) (acc : PreSegOutput),
      rows.foldl (processPreSegRow dims minSize minDepth) acc =
        { masks := acc.masks ++
            (rows.filter fun r =>
              ¬ prunedRecord dims minSize minDepth r).map mkTomoMaskE
          subtomos := acc.subtomos ++
            (rows.filter fun r =>
              ¬ prunedRecord dims minSize minDepth r).map mkSubTomogramE
          finalRows := acc.finalRows ++
            rows.filter fun r => ¬ prunedRecord dims minSize minDepth r
          nRemoved := acc.nRemoved +
            (rows.filter fun r => prunedRecord dims minSize minDepth r).length
          deletedFiles := acc.deletedFiles ++
            ((rows.filter fun r => prunedRecord dims minSize minDepth r).map
              (fun r => removeVesicleFiles r.vesicleSeg)).flatten } := by
  intro rows
  induction rows with
  | nil => intro acc; simp
  | cons r rs ih =>
    intro acc
    rw [List.foldl_cons, ih]
    by_cases h1 : dims r.vesicle = dims r.tomogram
    · have hp : prunedRecord dims minSize minDepth r := Or.inl h1
      rw [processPreSegRow]
      simp only [if_pos h1]
      simp [List.filter_cons, hp, List.append_assoc]
      omega
    · by_cases h2 : (minSize > 0 ∨ minDepth > 0) ∧
          ((dims r.vesicle).1 < minSize ∨ (dims r.vesicle).2.1 < minSize ∨
            (dims r.vesicle).2.2 < minDepth)
      · have hp : prunedRecord dims minSize minDepth r := Or.inr h2
        rw [processPreSegRow]
        simp only [if_neg h1, if_pos h2]
        simp [List.filter_cons, hp, List.append_assoc]
        omega
      · have hp : ¬ prunedRecord dims minSize minDepth r := by
          rw [prunedRecord]
          tauto
        rw [processPreSegRow]
        simp only [if_neg h1, if_neg h2]
        simp [List.filter_cons, hp, List.append_assoc]

/-- Claim C6. A record of the final pre-segmentation table is excluded
from both output sets exactly when its voxel extent equals its parent
tomogram's extent, or size filtering is enabled (`minSize > 0` or
`minDepth > 0`) and its width or height is below `minSize` or its depth
below `minDepth`; each excluded record increments the removed-count by
one and deletes its two companion files (the segmentation and its
un-segmented crop); every other record is appended to both output sets
(and to the final result table). -/
theorem c6_preseg_pruning (dims : String → Int × Int × Int)
    (minSize minDepth : Int) (rows : List PreSegRow) :
    (genOutputSetOfTomoMasks dims minSize minDepth rows).masks =
        (rows.filter fun r =>
          ¬ prunedRecord dims minSize minDepth r).map mkTomoMaskE ∧
    (genOutputSetOfTomoMasks dims minSize minDepth rows).subtomos =
        (rows.filter fun r =>
          ¬ prunedRecord dims minSize minDepth r).map mkSubTomogramE ∧
    (genOutputSetOfTomoMasks dims minSize minDepth rows).finalRows =
        (rows.filter fun r => ¬ prunedRecord dims minSize minDepth r) ∧
    (genOutputSetOfTomoMasks dims minSize minDepth rows).nRemoved =
        (rows.filter fun r => prunedRecord dims minSize minDepth r).length ∧
    (genOutputSetOfTomoMasks dims minSize minDepth rows).deletedFiles =
        ((rows.filter fun r => prunedRecord dims minSize minDepth r).map
          (fun r => removeVesicleFiles r.vesicleSeg)).flatten := by
  rw [genOutputSetOfTomoMasks, genOutputSetOfTomoMasks_go]
  simp

/-! ### The transform matrix (`_getTransformMatrix`, `convert.py`
lines 188-209)

Real-valued model of the numpy computation.  `euler_matrix(ai, aj, ak,
'szyz')` is embedded from `pwem.convert.transformations`: for the
`szyz` axis tuple (`firstaxis 2, parity 1, repetition 1, frame 0`) the
three angles are negated and the nine rotation entries are filled with
the products of their sines and cosines as written in that source. -/

/-- Embedding of `np.deg2rad`. -/
noncomputable def deg2rad (x : ℝ) : ℝ :=
  x * (Real.pi / 180)

/-- Embedding of `tfs.euler_matrix(ai, aj, ak, 'szyz')`. -/
noncomputable def eulerMatrixSzyz (ai aj ak : ℝ) : Matrix (Fin 4) (Fin 4) ℝ :=
  let si := Real.sin (-ai)
  let sj := Real.sin (-aj)
  let sk := Real.sin (-ak)
  let ci := Real.cos (-ai)
  let cj := Real.cos (-aj)
  let ck := Real.cos (-ak)
  !![cj * (ci * ck) - si * sk, cj * (si * ck) + ci * sk, -sj * ck, 0;
     -cj * (ci * sk) - si * ck, -cj * (si * sk) + ci * ck, sj * sk, 0;
     sj * ci, sj * si, cj, 0;
     0, 0, 0, 1]

/-- Overwriting of the translation column (`M[0, 3] = ...` etc.). -/
noncomputable def setShiftsCol (M : Matrix (Fin 4) (Fin 4) ℝ)
    (t1 t2 t3 : ℝ) : Matrix (Fin 4) (Fin 4) ℝ :=
  Matrix.of fun r c =>
    if r = 0 ∧ c = 3 then t1
    else if r = 1 ∧ c = 3 then t2
    else if r = 2 ∧ c = 3 then t3
    else M r c

/-- Embedding of `_getTransformMatrix`: negate the angles, convert to radians, build
the `szyz` Euler matrix; with `invert` insert the negated shifts and take
the matrix inverse, otherwise insert the shifts unmodified. -/
noncomputable def getTransformMatrix
    (rot tilt psi shiftx shifty shiftz : ℝ) (invert : Bool) :
    Matrix (Fin 4) (Fin 4) ℝ :=
  let M := eulerMatrixSzyz (-(deg2rad rot)) (-(deg2rad tilt)) (-(deg2rad psi))
  if invert then
    (setShiftsCol M (-shiftx) (-shifty) (-shiftz))⁻¹
  else
    setShiftsCol M shiftx shifty shiftz

/-- Homogeneous rotation about z. -/
noncomputable def rotZ4 (t : ℝ) : Matrix (Fin 4) (Fin 4) ℝ :=
  !![Real.cos t, -Real.sin t, 0, 0;
     Real.sin t, Real.cos t, 0, 0;
     0, 0, 1, 0;
     0, 0, 0, 1]

/-- Homogeneous rotation about y. -/
noncomputable def rotY4 (t : ℝ) : Matrix (Fin 4) (Fin 4) ℝ :=
  !![Real.cos t, 0, Real.sin t, 0;
     0, 1, 0, 0;
     -Real.sin t, 0, Real.cos t, 0;
     0, 0, 0, 1]

/-- Homogeneous translation. -/
noncomputable def transl4 (t1 t2 t3 : ℝ) : Matrix (Fin 4) (Fin 4) ℝ :=
  !![1, 0, 0, t1;
     0, 1, 0, t2;
     0, 0, 1, t3;
     0, 0, 0, 1]

theorem rotZ4_mul_neg (t : ℝ) : rotZ4 t * rotZ4 (-t) = 1 := by
  ext i j
  fin_cases i <;> fin_cases j <;>
    simp [rotZ4, Matrix.mul_apply, Fin.sum_univ_four, Real.sin_neg,
      Real.cos_neg, Matrix.one_apply, Matrix.vecHead, Matrix.vecTail] <;>
    ring_nf <;>
    linear_combination Real.sin_sq_add_cos_sq t

theorem rotY4_mul_neg (t : ℝ) : rotY4 t * rotY4 (-t) = 1 := by
  ext i j
  fin_cases i <;> fin_cases j <;>
    simp [rotY4, Matrix.mul_apply, Fin.sum_univ_four, Real.sin_neg,
      Real.cos_neg, Matrix.one_apply, Matrix.vecHead, Matrix.vecTail] <;>
    ring_nf <;>
    linear_combination Real.sin_sq_add_cos_sq t

theorem transl4_mul_neg (t1 t2 t3 : ℝ) :
    transl4 t1 t2 t3 * transl4 (-t1) (-t2) (-t3) = 1 := by
  ext i j
  fin_cases i <;> fin_cases j <;>
    simp [transl4, Matrix.mul_apply, Fin.sum_univ_four, Matrix.one_apply,
      Matrix.vecHead, Matrix.vecTail]

/-- The embedded `szyz` Euler matrix is the extrinsic z-y-z rotation
composite (ZYZ convention). -/
theorem eulerMatrixSzyz_eq_rots (ai aj ak : ℝ) :
    eulerMatrixSzyz ai aj ak = rotZ4 ak * rotY4 aj * rotZ4 ai := by
  ext i j
  fin_cases i <;> fin_cases j <;>
    simp [eulerMatrixSzyz, rotZ4, rotY4, Matrix.mul_apply,
      Fin.sum_univ_four, Real.sin_neg, Real.cos_neg, Matrix.vecHead,
      Matrix.vecTail] <;>
    ring

/-- Setting the translation column of the Euler matrix is left
multiplication by the translation matrix. -/
theorem setShiftsCol_euler (ai aj ak t1 t2 t3 : ℝ) :
    setShiftsCol (eulerMatrixSzyz ai aj ak) t1 t2 t3 =
      transl4 t1 t2 t3 * eulerMatrixSzyz ai aj ak := by
  ext i j
  fin_cases i <;> fin_cases j <;>
    simp [setShiftsCol, transl4, eulerMatrixSzyz, Matrix.mul_apply,
      Fin.sum_univ_four, Matrix.vecHead, Matrix.vecTail]

theorem matMulCancel {A B : Matrix (Fin 4) (Fin 4) ℝ} (h : A * B = 1)
    (C : Matrix (Fin 4) (Fin 4) ℝ) : A * (B * C) = C := by
  rw [← Matrix.mul_assoc, h, Matrix.one_mul]

/-- The matrix built with negated shifts is invertible, with the
two-sided explicit inverse given by the reversed rotations and the
opposite translation. -/
theorem negShiftMatrix_mul_inverse (a b c t1 t2 t3 : ℝ) :
    setShiftsCol (eulerMatrixSzyz a b c) t1 t2 t3 *
      (rotZ4 (-a) * (rotY4 (-b) * (rotZ4 (-c) *
        transl4 (-t1) (-t2) (-t3)))) = 1 := by
  rw [setShiftsCol_euler, eulerMatrixSzyz_eq_rots]
  simp only [Matrix.mul_assoc]
  rw [matMulCancel (rotZ4_mul_neg a), matMulCancel (rotY4_mul_neg b),
    matMulCancel (rotZ4_mul_neg c)]
  exact transl4_mul_neg t1 t2 t3

/-- Claim C3. With `invert = true` the built transform is the matrix
inverse of the matrix `N` obtained by building the rotation from the
negated, degree-to-radian-converted angles in the ZYZ convention
(`eulerMatrixSzyz` of `-(deg2rad angle)`, which factors as z-, y- and
z-axis rotations) and inserting the negated shift components into the
translation column: it equals `N⁻¹` and is a genuine two-sided inverse
(`N * T = 1` and `T * N = 1`, so `N` is nonsingular and `np.linalg.inv`
is the true inverse).  With `invert = false` the shifts are inserted
unmodified and no inversion is applied. -/
theorem c3_transform_invert (rot tilt psi sx sy sz : ℝ) :
    (setShiftsCol
        (eulerMatrixSzyz (-(deg2rad rot)) (-(deg2rad tilt)) (-(deg2rad psi)))
        (-sx) (-sy) (-sz) *
      getTransformMatrix rot tilt psi sx sy sz true = 1) ∧
    (getTransformMatrix rot tilt psi sx sy sz true *
      setShiftsCol
        (eulerMatrixSzyz (-(deg2rad rot)) (-(deg2rad tilt)) (-(deg2rad psi)))
        (-sx) (-sy) (-sz) = 1) ∧
    getTransformMatrix rot tilt psi sx sy sz true =
      (setShiftsCol
        (eulerMatrixSzyz (-(deg2rad rot)) (-(deg2rad tilt)) (-(deg2rad psi)))
        (-sx) (-sy) (-sz))⁻¹ ∧
    eulerMatrixSzyz (-(deg2rad rot)) (-(deg2rad tilt)) (-(deg2rad psi)) =
      rotZ4 (-(deg2rad psi)) * rotY4 (-(deg2rad tilt)) *
        rotZ4 (-(deg2rad rot)) ∧
    getTransformMatrix rot tilt psi sx sy sz false =
      setShiftsCol
        (eulerMatrixSzyz (-(deg2rad rot)) (-(deg2rad tilt)) (-(deg2rad psi)))
        sx sy sz := by
  have hright := negShiftMatrix_mul_inverse (-(deg2rad rot)) (-(deg2rad tilt))
    (-(deg2rad psi)) (-sx) (-sy) (-sz)
  have hinv :
      (setShiftsCol
        (eulerMatrixSzyz (-(deg2rad rot)) (-(deg2rad tilt)) (-(deg2rad psi)))
        (-sx) (-sy) (-sz))⁻¹ =
      rotZ4 (-(-(deg2rad rot))) * (rotY4 (-(-(deg2rad tilt))) *
        (rotZ4 (-(-(deg2rad psi))) * transl4 (-(-sx)) (-(-sy)) (-(-sz)))) :=
    Matrix.inv_eq_right_inv hright
  have hT : getTransformMatrix rot tilt psi sx sy sz true =
      (setShiftsCol
        (eulerMatrixSzyz (-(deg2rad rot)) (-(deg2rad tilt)) (-(deg2rad psi)))
        (-sx) (-sy) (-sz))⁻¹ := rfl
  refine ⟨?_, ?_, hT, eulerMatrixSzyz_eq_rots _ _ _, rfl⟩
  · rw [hT, hinv]
    exact hright
  · rw [hT, hinv]
    exact Matrix.mul_eq_one_comm.mp hright

end PysegV
